import Mathlib

/-
Verification of the HMAX_illusion stimulus generator and dataset codec.

The development embeds the two source files of the repository:
  - data_generation.py : constrained stochastic samplers for the Cross-Fin
    and Muller-Lyer stimulus families, plus the batch generator that writes
    each image under an underscore-joined filename (the encoder).
  - Dataset.py : the two dataset classes whose anchored regular expressions
    parse those filenames back into parameter records (the decoder).

Strings are modelled as lists of characters.  Each call to Python's
random.randint(a, b) or random.choices(..., weights) is modelled by a
deterministic function of an explicit seed argument: randint a b r lies in
the closed interval from a to b whenever a is at most b, and every value of
that interval is reached by some seed, so per-sample invariants proved for
all seeds correspond exactly to properties holding for all samples.
-/

namespace HMAXIllusion

/-! ### Decimal digit strings

Python's f-string interpolation prints integers in base 10 with no sign and
no padding; the dataset regexes read them back.  natDigits renders a natural
number the same way; parseDigits models a greedy anchored match of one or
more digit characters. -/

def digitChar (d : Nat) : Char := Char.ofNat (48 + d)

def digitVal (c : Char) : Nat := c.toNat - 48

def isDigitChar (c : Char) : Bool := decide (48 ≤ c.toNat ∧ c.toNat ≤ 57)

/-- Fuel-indexed base-10 rendering, most significant digit first. -/
def natDigitsCore : Nat → Nat → List Char → List Char
  | 0, _, acc => acc
  | f + 1, n, acc =>
    if n < 10 then digitChar n :: acc
    else natDigitsCore f (n / 10) (digitChar (n % 10) :: acc)

def natDigits (n : Nat) : List Char := natDigitsCore (n + 1) n []

def digitsVal : Nat → List Char → Nat
  | a, [] => a
  | a, c :: cs => digitsVal (10 * a + digitVal c) cs

/-- Longest digit prefix of a character list, with the remainder. -/
def takeDigits : List Char → List Char × List Char
  | [] => ([], [])
  | c :: cs =>
    if isDigitChar c then
      let p := takeDigits cs
      (c :: p.1, p.2)
    else ([], c :: cs)

/-- Greedy match of a nonempty digit run, as the regex group of digits does. -/
def parseDigits (s : List Char) : Option (Nat × List Char) :=
  match takeDigits s with
  | ([], _) => none
  | (ds, rest) => some (digitsVal 0 ds, rest)

lemma digitChar_spec : ∀ d : Fin 10,
    isDigitChar (digitChar d.val) = true ∧ digitVal (digitChar d.val) = d.val := by
  decide

lemma natDigitsCore_canon : ∀ n f acc, n < f →
    natDigitsCore f n acc = natDigits n ++ acc := by
  intro n
  induction n using Nat.strong_induction_on with
  | _ n ih =>
    intro f acc hf
    match f with
    | 0 => omega
    | f + 1 =>
      by_cases h10 : n < 10
      · simp [natDigitsCore, natDigits, h10]
      · have hdiv : n / 10 < n := Nat.div_lt_self (by omega) (by omega)
        have hrec : ∀ g acc2, n / 10 < g →
            natDigitsCore g (n / 10) acc2 = natDigits (n / 10) ++ acc2 :=
          fun g acc2 hg => ih (n / 10) hdiv g acc2 hg
        have hL : natDigitsCore (f + 1) n acc
            = natDigitsCore f (n / 10) (digitChar (n % 10) :: acc) := by
          simp [natDigitsCore, h10]
        have hR : natDigits n
            = natDigits (n / 10) ++ [digitChar (n % 10)] := by
          show natDigitsCore (n + 1) n [] = _
          have : natDigitsCore (n + 1) n []
              = natDigitsCore n (n / 10) [digitChar (n % 10)] := by
            simp [natDigitsCore, h10]
          rw [this, hrec n [digitChar (n % 10)] (by omega)]
        rw [hL, hrec f (digitChar (n % 10) :: acc) (by omega), hR,
          List.append_assoc]
        simp

/-- Unfolding rule for natDigits free of the fuel argument. -/
lemma natDigits_unfold (n : Nat) :
    natDigits n = if n < 10 then [digitChar n]
      else natDigits (n / 10) ++ [digitChar (n % 10)] := by
  by_cases h10 : n < 10
  · simp [natDigits, natDigitsCore, h10]
  · have : natDigits n = natDigitsCore (n + 1) n [] := rfl
    rw [this]
    have step : natDigitsCore (n + 1) n []
        = natDigitsCore n (n / 10) [digitChar (n % 10)] := by
      simp [natDigitsCore, h10]
    rw [step, natDigitsCore_canon (n / 10) n [digitChar (n % 10)]
      (Nat.div_lt_self (by omega) (by omega))]
    simp [h10]

lemma natDigits_ne_nil (n : Nat) : natDigits n ≠ [] := by
  rw [natDigits_unfold]
  by_cases h : n < 10 <;> simp [h]

lemma natDigits_digits (n : Nat) : ∀ c ∈ natDigits n, isDigitChar c = true := by
  induction n using Nat.strong_induction_on with
  | _ n ih =>
    rw [natDigits_unfold]
    by_cases h10 : n < 10
    · rw [if_pos h10]
      simp only [List.mem_singleton]
      rintro c rfl
      exact (digitChar_spec ⟨n, h10⟩).1
    · rw [if_neg h10]
      simp only [List.mem_append, List.mem_singleton]
      rintro c (hc | rfl)
      · exact ih (n / 10) (Nat.div_lt_self (by omega) (by omega)) c hc
      · exact (digitChar_spec ⟨n % 10, Nat.mod_lt _ (by omega)⟩).1

lemma digitsVal_append (xs ys : List Char) : ∀ a,
    digitsVal a (xs ++ ys) = digitsVal (digitsVal a xs) ys := by
  induction xs with
  | nil => intro a; rfl
  | cons c cs ih =>
    intro a
    rw [List.cons_append]
    show digitsVal (10 * a + digitVal c) (cs ++ ys)
      = digitsVal (digitsVal (10 * a + digitVal c) cs) ys
    exact ih _

lemma digitsVal_natDigits (n : Nat) : ∀ a,
    digitsVal a (natDigits n) = a * 10 ^ (natDigits n).length + n := by
  induction n using Nat.strong_induction_on with
  | _ n ih =>
    intro a
    rw [natDigits_unfold]
    by_cases h10 : n < 10
    · rw [if_pos h10]
      show 10 * a + digitVal (digitChar n) = a * 10 ^ 1 + n
      rw [(digitChar_spec ⟨n, h10⟩).2]
      ring
    · rw [if_neg h10]
      have hdiv : n / 10 < n := Nat.div_lt_self (by omega) (by omega)
      rw [digitsVal_append, ih (n / 10) hdiv a, List.length_append,
        List.length_singleton]
      show 10 * (a * 10 ^ (natDigits (n / 10)).length + n / 10)
            + digitVal (digitChar (n % 10))
          = a * 10 ^ ((natDigits (n / 10)).length + 1) + n
      rw [(digitChar_spec ⟨n % 10, Nat.mod_lt _ (by omega)⟩).2, pow_succ]
      have hdm : 10 * (n / 10) + n % 10 = n := Nat.div_add_mod n 10
      calc 10 * (a * 10 ^ (natDigits (n / 10)).length + n / 10) + n % 10
          = a * (10 ^ (natDigits (n / 10)).length * 10)
            + (10 * (n / 10) + n % 10) := by ring
        _ = a * (10 ^ (natDigits (n / 10)).length * 10) + n := by rw [hdm]

lemma digitsVal_natDigits_zero (n : Nat) : digitsVal 0 (natDigits n) = n := by
  rw [digitsVal_natDigits]
  simp

lemma takeDigits_all (ds : List Char) (c : Char) (rest : List Char)
    (hds : ∀ x ∈ ds, isDigitChar x = true) (hc : isDigitChar c = false) :
    takeDigits (ds ++ c :: rest) = (ds, c :: rest) := by
  induction ds with
  | nil => simp [takeDigits, hc]
  | cons d ds ih =>
    have hd : isDigitChar d = true := hds d (by simp)
    have ihds : ∀ x ∈ ds, isDigitChar x = true := fun x hx => hds x (by simp [hx])
    simp [takeDigits, hd, ih ihds]

/-- Parsing the rendering of n, followed by a non-digit character, yields
exactly n and leaves the rest untouched. -/
lemma parseDigits_natDigits (n : Nat) (c : Char) (rest : List Char)
    (hc : isDigitChar c = false) :
    parseDigits (natDigits n ++ c :: rest) = some (n, c :: rest) := by
  unfold parseDigits
  rw [takeDigits_all (natDigits n) c rest (natDigits_digits n) hc]
  have hne := natDigits_ne_nil n
  match h : natDigits n with
  | [] => exact absurd h hne
  | d :: ds =>
    have := digitsVal_natDigits_zero n
    rw [h] at this
    simp [this]

/-! ### Enumerated cases and their filename tokens -/

inductive LengthCase where
  | EQUAL | LONG | SHORT
deriving DecidableEq

inductive FinCase where
  | SAME_CONFIG | DIFF_CONFIG
deriving DecidableEq

inductive TopDir where
  | LONG | SHORT
deriving DecidableEq

inductive BotDir where
  | SAME_DIR | DIFF_DIR
deriving DecidableEq

def lenTok : LengthCase → List Char
  | .EQUAL => ['E', 'Q', 'U', 'A', 'L']
  | .LONG => ['L', 'O', 'N', 'G']
  | .SHORT => ['S', 'H', 'O', 'R', 'T']

def finTok : FinCase → List Char
  | .SAME_CONFIG => ['S', 'A', 'M', 'E', '_', 'C', 'O', 'N', 'F', 'I', 'G']
  | .DIFF_CONFIG => ['D', 'I', 'F', 'F', '_', 'C', 'O', 'N', 'F', 'I', 'G']

def topDirTok : TopDir → List Char
  | .LONG => ['L', 'O', 'N', 'G']
  | .SHORT => ['S', 'H', 'O', 'R', 'T']

def botDirTok : BotDir → List Char
  | .SAME_DIR => ['S', 'A', 'M', 'E', '_', 'D', 'I', 'R']
  | .DIFF_DIR => ['D', 'I', 'F', 'F', '_', 'D', 'I', 'R']

/-! ### Literal and alternation parsers

decode is modelled as a deterministic left-to-right parser.  It agrees with
the anchored regexes of Dataset.py: every digit group there is followed by a
non-digit literal, and the token alternations are prefix-free, so the regex
admits exactly one decomposition of any matching string and no backtracking
choice is ever observable. -/

def parseLit : List Char → List Char → Option (List Char)
  | [], s => some s
  | _ :: _, [] => none
  | c :: cs, d :: ds => if c = d then parseLit cs ds else none

def parseLabel : List Char → Option (Nat × List Char)
  | [] => none
  | c :: cs => if c = '0' then some (0, cs) else if c = '1' then some (1, cs) else none

/-- Alternation (EQUAL|LONG|SHORT) of the Cross-Fin regex. -/
def parseLenCase (s : List Char) : Option (LengthCase × List Char) :=
  match parseLit (lenTok .EQUAL) s with
  | some r => some (.EQUAL, r)
  | none =>
    match parseLit (lenTok .LONG) s with
    | some r => some (.LONG, r)
    | none =>
      match parseLit (lenTok .SHORT) s with
      | some r => some (.SHORT, r)
      | none => none

/-- Alternation (SAME_CONFIG|DIFF_CONFIG), shared by both regexes. -/
def parseFinCase (s : List Char) : Option (FinCase × List Char) :=
  match parseLit (finTok .SAME_CONFIG) s with
  | some r => some (.SAME_CONFIG, r)
  | none =>
    match parseLit (finTok .DIFF_CONFIG) s with
    | some r => some (.DIFF_CONFIG, r)
    | none => none

/-- Alternation (LONG|SHORT) of the Muller-Lyer regex. -/
def parseTopDir (s : List Char) : Option (TopDir × List Char) :=
  match parseLit (topDirTok .LONG) s with
  | some r => some (.LONG, r)
  | none =>
    match parseLit (topDirTok .SHORT) s with
    | some r => some (.SHORT, r)
    | none => none

/-- Alternation (DIFF_DIR|SAME_DIR) of the Muller-Lyer regex, in regex order. -/
def parseBotDir (s : List Char) : Option (BotDir × List Char) :=
  match parseLit (botDirTok .DIFF_DIR) s with
  | some r => some (.DIFF_DIR, r)
  | none =>
    match parseLit (botDirTok .SAME_DIR) s with
    | some r => some (.SAME_DIR, r)
    | none => none

lemma parseLit_append (l s : List Char) : parseLit l (l ++ s) = some s := by
  induction l with
  | nil => rfl
  | cons c cs ih => simp [parseLit, ih]

lemma parseLit_head_ne (c d : Char) (cs ds : List Char) (h : c ≠ d) :
    parseLit (c :: cs) (d :: ds) = none := by
  simp [parseLit, h]

lemma parseLenCase_tok (lc : LengthCase) (rest : List Char) :
    parseLenCase (lenTok lc ++ rest) = some (lc, rest) := by
  cases lc
  · simp [parseLenCase, parseLit_append]
  · rw [parseLenCase,
      show parseLit (lenTok .EQUAL) (lenTok .LONG ++ rest) = none from
        parseLit_head_ne _ _ _ _ (by decide),
      parseLit_append]
  · rw [parseLenCase,
      show parseLit (lenTok .EQUAL) (lenTok .SHORT ++ rest) = none from
        parseLit_head_ne _ _ _ _ (by decide),
      show parseLit (lenTok .LONG) (lenTok .SHORT ++ rest) = none from
        parseLit_head_ne _ _ _ _ (by decide),
      parseLit_append]

lemma parseFinCase_tok (fc : FinCase) (rest : List Char) :
    parseFinCase (finTok fc ++ rest) = some (fc, rest) := by
  cases fc
  · simp [parseFinCase, parseLit_append]
  · rw [parseFinCase,
      show parseLit (finTok .SAME_CONFIG) (finTok .DIFF_CONFIG ++ rest) = none from
        parseLit_head_ne _ _ _ _ (by decide),
      parseLit_append]

lemma parseTopDir_tok (td : TopDir) (rest : List Char) :
    parseTopDir (topDirTok td ++ rest) = some (td, rest) := by
  cases td
  · simp [parseTopDir, parseLit_append]
  · rw [parseTopDir,
      show parseLit (topDirTok .LONG) (topDirTok .SHORT ++ rest) = none from
        parseLit_head_ne _ _ _ _ (by decide),
      parseLit_append]

lemma parseBotDir_tok (bd : BotDir) (rest : List Char) :
    parseBotDir (botDirTok bd ++ rest) = some (bd, rest) := by
  cases bd
  · rw [parseBotDir,
      show parseLit (botDirTok .DIFF_DIR) (botDirTok .SAME_DIR ++ rest) = none from
        parseLit_head_ne _ _ _ _ (by decide),
      parseLit_append]
  · simp [parseBotDir, parseLit_append]

/-! ### Parameter records

XFRec and MLRec are the parameter records carried by a filename: the fields
of the params dictionary built by the generator, plus the image index that
the save loop prepends and that the dataset regex reads back as group 1. -/

structure XFRec where
  index : Nat
  label : Nat
  length_case : LengthCase
  fin_case : FinCase
  top_length : Nat
  bottom_length : Nat
  top_fin_length : Nat
  top_fin_angle_deg : Nat
  bottom_fin_length : Nat
  bottom_fin_angle_deg : Nat
  top_y : Nat
  bottom_y : Nat
deriving DecidableEq

structure MLRec where
  index : Nat
  label : Nat
  top_dir_case : TopDir
  bottom_dir_case : BotDir
  fin_case : FinCase
  shaft_length : Nat
  top_fin_length : Nat
  top_fin_angle_deg : Nat
  bottom_fin_length : Nat
  bottom_fin_angle_deg : Nat
  top_y : Nat
  bottom_y : Nat
deriving DecidableEq

/-! ### The codec

encode_xf and encode_ml are the f-string filenames built in
generate_and_save; decode_xf and decode_ml are the anchored regexes compiled
in CrossFinDataset.__init__ and MullerLyerDataset.__init__. -/

def encode_xf (r : XFRec) : List Char :=
  ['x', 'f', '_'] ++
  (natDigits r.index ++ ('_' ::
  (natDigits r.label ++ ('_' ::
  (lenTok r.length_case ++ ('_' ::
  (finTok r.fin_case ++ ('_' ::
  (natDigits r.top_length ++ ('_' ::
  (natDigits r.bottom_length ++ ('_' ::
  (natDigits r.top_fin_length ++ ('_' ::
  (natDigits r.top_fin_angle_deg ++ ('_' ::
  (natDigits r.bottom_fin_length ++ ('_' ::
  (natDigits r.bottom_fin_angle_deg ++ ('_' ::
  (natDigits r.top_y ++ ('_' ::
  (natDigits r.bottom_y ++ ['.', 'p', 'n', 'g'])))))))))))))))))))))))

def encode_ml (r : MLRec) : List Char :=
  ['m', 'l', '_'] ++
  (natDigits r.index ++ ('_' ::
  (natDigits r.label ++ ('_' ::
  (topDirTok r.top_dir_case ++ ('_' ::
  (botDirTok r.bottom_dir_case ++ ('_' ::
  (finTok r.fin_case ++ ('_' ::
  (natDigits r.shaft_length ++ ('_' ::
  (natDigits r.top_fin_length ++ ('_' ::
  (natDigits r.top_fin_angle_deg ++ ('_' ::
  (natDigits r.bottom_fin_length ++ ('_' ::
  (natDigits r.bottom_fin_angle_deg ++ ('_' ::
  (natDigits r.top_y ++ ('_' ::
  (natDigits r.bottom_y ++ ['.', 'p', 'n', 'g'])))))))))))))))))))))))

/-- Groups 1 to 4 of the Cross-Fin regex: tag, index, label, length_case,
fin_case, each followed by its separating underscore. -/
def decode_xf_head (s : List Char) :
    Option ((Nat × Nat × LengthCase × FinCase) × List Char) := do
  let s0 ← parseLit ['x', 'f', '_'] s
  let p1 ← parseDigits s0
  let s1 ← parseLit ['_'] p1.2
  let p2 ← parseLabel s1
  let s2 ← parseLit ['_'] p2.2
  let p3 ← parseLenCase s2
  let s3 ← parseLit ['_'] p3.2
  let p4 ← parseFinCase s3
  let s4 ← parseLit ['_'] p4.2
  some ((p1.1, p2.1, p3.1, p4.1), s4)

/-- Four underscore-separated integer groups; the remainder starts at the
character after the fourth group. -/
def parseNat4 (s : List Char) : Option ((Nat × Nat × Nat × Nat) × List Char) := do
  let a ← parseDigits s
  let s1 ← parseLit ['_'] a.2
  let b ← parseDigits s1
  let s2 ← parseLit ['_'] b.2
  let c ← parseDigits s2
  let s3 ← parseLit ['_'] c.2
  let d ← parseDigits s3
  some ((a.1, b.1, c.1, d.1), d.2)

/-- Three underscore-separated integer groups. -/
def parseNat3 (s : List Char) : Option ((Nat × Nat × Nat) × List Char) := do
  let a ← parseDigits s
  let s1 ← parseLit ['_'] a.2
  let b ← parseDigits s1
  let s2 ← parseLit ['_'] b.2
  let c ← parseDigits s2
  some ((a.1, b.1, c.1), c.2)

def decode_xf (s : List Char) : Option XFRec := do
  let h ← decode_xf_head s
  let q1 ← parseNat4 h.2
  let s8 ← parseLit ['_'] q1.2
  let q2 ← parseNat4 s8
  let s12 ← parseLit ['.', 'p', 'n', 'g'] q2.2
  if s12 = [] then
    some ⟨h.1.1, h.1.2.1, h.1.2.2.1, h.1.2.2.2,
      q1.1.1, q1.1.2.1, q1.1.2.2.1, q1.1.2.2.2,
      q2.1.1, q2.1.2.1, q2.1.2.2.1, q2.1.2.2.2⟩
  else none

/-- Groups 1 to 5 of the Muller-Lyer regex: tag, index, label, top_dir_case,
bottom_dir_case, fin_case, each followed by its separating underscore. -/
def decode_ml_head (s : List Char) :
    Option ((Nat × Nat × TopDir × BotDir × FinCase) × List Char) := do
  let s0 ← parseLit ['m', 'l', '_'] s
  let p1 ← parseDigits s0
  let s1 ← parseLit ['_'] p1.2
  let p2 ← parseLabel s1
  let s2 ← parseLit ['_'] p2.2
  let p3 ← parseTopDir s2
  let s3 ← parseLit ['_'] p3.2
  let p4 ← parseBotDir s3
  let s4 ← parseLit ['_'] p4.2
  let p5 ← parseFinCase s4
  let s5 ← parseLit ['_'] p5.2
  some ((p1.1, p2.1, p3.1, p4.1, p5.1), s5)

def decode_ml (s : List Char) : Option MLRec := do
  let h ← decode_ml_head s
  let q1 ← parseNat4 h.2
  let s9 ← parseLit ['_'] q1.2
  let q2 ← parseNat3 s9
  let s12 ← parseLit ['.', 'p', 'n', 'g'] q2.2
  if s12 = [] then
    some ⟨h.1.1, h.1.2.1, h.1.2.2.1, h.1.2.2.2.1, h.1.2.2.2.2,
      q1.1.1, q1.1.2.1, q1.1.2.2.1, q1.1.2.2.2,
      q2.1.1, q2.1.2.1, q2.1.2.2⟩
  else none

/-! ### Round-trip lemmas for the codec -/

lemma natDigits_zero : natDigits 0 = ['0'] := by decide

lemma natDigits_one : natDigits 1 = ['1'] := by decide

lemma isDigitChar_sep : isDigitChar '_' = false := by decide

lemma isDigitChar_ext : isDigitChar '.' = false := by decide

lemma parseLit_cons_self (c : Char) (rest : List Char) :
    parseLit [c] (c :: rest) = some rest := by
  simp [parseLit]

lemma parseLit_self (l : List Char) : parseLit l l = some [] := by
  simpa using parseLit_append l []

lemma optionBind_some {α β : Type} (a : α) (f : α → Option β) :
    (some a >>= f) = f a := rfl

lemma parseLabel_natDigits (lbl : Nat) (rest : List Char) (hl : lbl ≤ 1) :
    parseLabel (natDigits lbl ++ rest) = some (lbl, rest) := by
  interval_cases lbl
  · rw [natDigits_zero]
    simp [parseLabel]
  · rw [natDigits_one]
    simp [parseLabel]

lemma decode_xf_head_enc (i lbl : Nat) (lc : LengthCase) (fc : FinCase)
    (rest : List Char) (hl : lbl ≤ 1) :
    decode_xf_head (['x', 'f', '_'] ++ (natDigits i ++ ('_' ::
      (natDigits lbl ++ ('_' :: (lenTok lc ++ ('_' ::
      (finTok fc ++ ('_' :: rest)))))))))
    = some ((i, lbl, lc, fc), rest) := by
  simp only [decode_xf_head, parseLit_append, Option.some_bind, optionBind_some,
    parseDigits_natDigits _ _ _ isDigitChar_sep, parseLit_cons_self,
    parseLabel_natDigits _ _ hl, parseLenCase_tok, parseFinCase_tok]

lemma parseNat4_enc (a b c d : Nat) (ch : Char) (rest : List Char)
    (hch : isDigitChar ch = false) :
    parseNat4 (natDigits a ++ ('_' :: (natDigits b ++ ('_' ::
      (natDigits c ++ ('_' :: (natDigits d ++ ch :: rest)))))))
    = some ((a, b, c, d), ch :: rest) := by
  simp only [parseNat4, parseDigits_natDigits _ _ _ isDigitChar_sep,
    parseDigits_natDigits _ _ _ hch, Option.some_bind, optionBind_some, parseLit_cons_self]

lemma parseNat3_enc (a b c : Nat) (ch : Char) (rest : List Char)
    (hch : isDigitChar ch = false) :
    parseNat3 (natDigits a ++ ('_' :: (natDigits b ++ ('_' ::
      (natDigits c ++ ch :: rest)))))
    = some ((a, b, c), ch :: rest) := by
  simp only [parseNat3, parseDigits_natDigits _ _ _ isDigitChar_sep,
    parseDigits_natDigits _ _ _ hch, Option.some_bind, optionBind_some, parseLit_cons_self]

lemma decode_ml_head_enc (i lbl : Nat) (td : TopDir) (bd : BotDir)
    (fc : FinCase) (rest : List Char) (hl : lbl ≤ 1) :
    decode_ml_head (['m', 'l', '_'] ++ (natDigits i ++ ('_' ::
      (natDigits lbl ++ ('_' :: (topDirTok td ++ ('_' ::
      (botDirTok bd ++ ('_' :: (finTok fc ++ ('_' :: rest)))))))))))
    = some ((i, lbl, td, bd, fc), rest) := by
  simp only [decode_ml_head, parseLit_append, Option.some_bind, optionBind_some,
    parseDigits_natDigits _ _ _ isDigitChar_sep, parseLit_cons_self,
    parseLabel_natDigits _ _ hl, parseTopDir_tok, parseBotDir_tok,
    parseFinCase_tok]

lemma decode_xf_encode_xf (r : XFRec) (hl : r.label ≤ 1) :
    decode_xf (encode_xf r) = some r := by
  obtain ⟨i, lbl, lc, fc, tl, bl, tf, ta, bf, ba, ty, byy⟩ := r
  simp only [encode_xf, decode_xf, decode_xf_head_enc i lbl lc fc _ hl,
    Option.some_bind, optionBind_some, parseNat4_enc _ _ _ _ _ _ isDigitChar_sep,
    parseNat4_enc _ _ _ _ _ _ isDigitChar_ext, parseLit_cons_self,
    parseLit_self, if_true]

lemma decode_ml_encode_ml (r : MLRec) (hl : r.label ≤ 1) :
    decode_ml (encode_ml r) = some r := by
  obtain ⟨i, lbl, td, bd, fc, sl, tf, ta, bf, ba, ty, byy⟩ := r
  simp only [encode_ml, decode_ml, decode_ml_head_enc i lbl td bd fc _ hl,
    Option.some_bind, optionBind_some, parseNat4_enc _ _ _ _ _ _ isDigitChar_sep,
    parseNat3_enc _ _ _ _ _ isDigitChar_ext, parseLit_cons_self,
    parseLit_self, if_true]

/-! ### The geometry samplers of data_generation.py

randint a b r models random.randint(a, b): when a is at most b its value
ranges over exactly the closed interval from a to b as the seed r varies.
choices2 x y wx wy r models random.choices([x, y], weights=[wx, wy]): x is
drawn for wx out of every wx + wy residues of the seed, so an outcome is
reachable exactly when its weight is positive. -/

def randint (a b r : Nat) : Nat := a + r % (b + 1 - a)

def choices2 {α : Type} (x y : α) (wx wy : Nat) (r : Nat) : α :=
  if r % (wx + wy) < wx then x else y

lemma randint_mem (a b r : Nat) (h : a ≤ b) :
    a ≤ randint a b r ∧ randint a b r ≤ b := by
  unfold randint
  have h0 : 0 < b + 1 - a := by omega
  have := Nat.mod_lt r h0
  omega

/-- min_length of both generators. -/
def min_length : Nat := 45

/-- Models int(image_size * 0.8): for the image sizes in use the float
product truncates to the integer quotient below. -/
def max_length (image_size : Nat) : Nat := image_size * 4 / 5

/-- One seed per randint call site inside a single image generation. -/
structure XFSeeds where
  ry1 : Nat
  ry2 : Nat
  rlen : Nat
  rdelta : Nat
  rtf : Nat
  rta : Nat
  rbf : Nat
  rba : Nat
deriving DecidableEq

/-- The params dictionary returned by generate_xf_image. -/
structure XFParams where
  label : Nat
  length_case : LengthCase
  fin_case : FinCase
  top_length : Nat
  bottom_length : Nat
  top_fin_length : Nat
  top_fin_angle_deg : Nat
  bottom_fin_length : Nat
  bottom_fin_angle_deg : Nat
  top_y : Nat
  bottom_y : Nat
deriving DecidableEq

/-- generate_xf_image of data_generation.py, sampling part.  The result is
none exactly when label = 1 and length_case is EQUAL, where the Python
function would hit an unbound top_length (a NameError); shaft subtraction
is clamped at min_length, so truncated Nat subtraction agrees with Python's
integers inside the max. -/
def generate_xf_image (label : Nat) (length_case : LengthCase)
    (fin_case : FinCase) (image_size : Nat) (s : XFSeeds) : Option XFParams :=
  let top_y := randint (image_size / 5) (image_size / 5 * 2) s.ry1
  let bottom_y := randint (image_size / 5 * 3) (image_size / 5 * 4) s.ry2
  let lens : Option (LengthCase × Nat × Nat) :=
    if label = 1 then
      match length_case with
      | .LONG =>
        let top_length := randint min_length (max_length image_size) s.rlen
        let delta := randint 2 62 s.rdelta
        some (.LONG, top_length, max min_length (top_length - delta))
      | .SHORT =>
        let bottom_length := randint min_length (max_length image_size) s.rlen
        let delta := randint 2 62 s.rdelta
        some (.SHORT, max min_length (bottom_length - delta), bottom_length)
      | .EQUAL => none
    else
      let top_length := randint min_length (max_length image_size) s.rlen
      some (.EQUAL, top_length, top_length)
  lens.bind fun lc_tl_bl =>
    let lc := lc_tl_bl.1
    let top_length := lc_tl_bl.2.1
    let bottom_length := lc_tl_bl.2.2
    let top_fin_length := randint 10 (min 35 (top_length / 3)) s.rtf
    let top_fin_angle_deg := randint 15 75 s.rta
    let bf_ba :=
      match fin_case with
      | .SAME_CONFIG => (top_fin_length, top_fin_angle_deg)
      | .DIFF_CONFIG =>
        (randint 10 (min 35 (bottom_length / 3)) s.rbf, randint 15 75 s.rba)
    some ⟨label, lc, fin_case, top_length, bottom_length, top_fin_length,
      top_fin_angle_deg, bf_ba.1, bf_ba.2, top_y, bottom_y⟩

structure MLSeeds where
  ry1 : Nat
  ry2 : Nat
  rshaft : Nat
  rtf : Nat
  rta : Nat
  rbf : Nat
  rba : Nat
deriving DecidableEq

/-- The params dictionary returned by generate_muller_lyer_image; its label
field is the constant 0 written there. -/
structure MLParams where
  label : Nat
  top_dir_case : TopDir
  bottom_dir_case : BotDir
  fin_case : FinCase
  shaft_length : Nat
  top_fin_length : Nat
  top_fin_angle_deg : Nat
  bottom_fin_length : Nat
  bottom_fin_angle_deg : Nat
  top_y : Nat
  bottom_y : Nat
deriving DecidableEq

/-- generate_muller_lyer_image of data_generation.py, sampling part.  The
direction cases only affect which arrowhead strokes are drawn, not the
sampled parameters. -/
def generate_muller_lyer_image (top_dir_case : TopDir)
    (bottom_dir_case : BotDir) (fin_case : FinCase) (image_size : Nat)
    (s : MLSeeds) : MLParams :=
  let top_y := randint (image_size / 5) (image_size / 5 * 2) s.ry1
  let bottom_y := randint (image_size / 5 * 3) (image_size / 5 * 4) s.ry2
  let shaft_length := randint min_length (max_length image_size) s.rshaft
  let top_length := shaft_length
  let bottom_length := shaft_length
  let top_fin_length := randint 15 (min 35 (top_length / 3)) s.rtf
  let top_fin_angle_deg := randint 15 75 s.rta
  let bf_ba :=
    match fin_case with
    | .SAME_CONFIG => (top_fin_length, top_fin_angle_deg)
    | .DIFF_CONFIG =>
      (randint 15 (min 35 (bottom_length / 3)) s.rbf, randint 15 75 s.rba)
  ⟨0, top_dir_case, bottom_dir_case, fin_case, shaft_length, top_fin_length,
    top_fin_angle_deg, bf_ba.1, bf_ba.2, top_y, bottom_y⟩

/-! ### The batch generators -/

/-- The caller-supplied 6-tuple case_ratio. -/
structure CaseWeights where
  w0 : Nat
  w1 : Nat
  w2 : Nat
  w3 : Nat
  w4 : Nat
  w5 : Nat
deriving DecidableEq

structure XFDrawSeeds where
  rlbl : Nat
  rfin : Nat
  rlen : Nat
  img : XFSeeds
deriving DecidableEq

/-- One loop iteration of generate_xf_dataset: lbl = random.randint(0, 1),
fin_case = choices over case_ratio[4:6], and, when lbl = 1, length_case =
choices over case_ratio[2:4], else the string EQUAL. -/
def xf_sample (w : CaseWeights) (image_size : Nat) (s : XFDrawSeeds) :
    Option XFParams :=
  let lbl := randint 0 1 s.rlbl
  let fin_case := choices2 FinCase.SAME_CONFIG FinCase.DIFF_CONFIG w.w4 w.w5 s.rfin
  let length_case :=
    if lbl = 1 then choices2 LengthCase.LONG LengthCase.SHORT w.w2 w.w3 s.rlen
    else LengthCase.EQUAL
  generate_xf_image lbl length_case fin_case image_size s.img

structure MLDrawSeeds where
  rtop : Nat
  rbot : Nat
  rfin : Nat
  img : MLSeeds
deriving DecidableEq

/-- One loop iteration of generate_muller_lyer_dataset: top_dir_case =
choices over case_ratio[2:4], and bottom_dir_case and fin_case both =
choices over case_ratio[4:6], exactly as written in the source. -/
def ml_sample (w : CaseWeights) (image_size : Nat) (s : MLDrawSeeds) :
    MLParams :=
  let top_dir_case := choices2 TopDir.LONG TopDir.SHORT w.w2 w.w3 s.rtop
  let bottom_dir_case := choices2 BotDir.SAME_DIR BotDir.DIFF_DIR w.w4 w.w5 s.rbot
  let fin_case := choices2 FinCase.SAME_CONFIG FinCase.DIFF_CONFIG w.w4 w.w5 s.rfin
  generate_muller_lyer_image top_dir_case bottom_dir_case fin_case image_size s.img

def generate_xf_dataset (num_images : Nat) (w : CaseWeights)
    (image_size : Nat) (seeds : Nat → XFDrawSeeds) : List (Option XFParams) :=
  (List.range num_images).map fun i => xf_sample w image_size (seeds i)

def generate_muller_lyer_dataset (num_images : Nat) (w : CaseWeights)
    (image_size : Nat) (seeds : Nat → MLDrawSeeds) : List MLParams :=
  (List.range num_images).map fun i => ml_sample w image_size (seeds i)

/-- The filename f-string of the train branch of generate_and_save. -/
def xf_filename (i : Nat) (p : XFParams) : List Char :=
  encode_xf ⟨i, p.label, p.length_case, p.fin_case, p.top_length,
    p.bottom_length, p.top_fin_length, p.top_fin_angle_deg,
    p.bottom_fin_length, p.bottom_fin_angle_deg, p.top_y, p.bottom_y⟩

/-- The filename f-string of the test branch of generate_and_save. -/
def ml_filename (i : Nat) (p : MLParams) : List Char :=
  encode_ml ⟨i, p.label, p.top_dir_case, p.bottom_dir_case, p.fin_case,
    p.shaft_length, p.top_fin_length, p.top_fin_angle_deg,
    p.bottom_fin_length, p.bottom_fin_angle_deg, p.top_y, p.bottom_y⟩

/-- Filesystem effect of one generate_and_save call: the output directories
it ensures exist and the filenames it writes inside them. -/
structure FSEffect where
  dirs : List (List Char)
  files : List (List Char)
deriving DecidableEq

/-- generate_and_save of data_generation.py.  The train branch writes the
Cross-Fin dataset into training_data, the test branch writes the
Muller-Lyer dataset into test_data, and any other kind string falls
through both conditionals and does nothing. -/
def generate_and_save (kind : List Char) (num_images : Nat)
    (w : CaseWeights) (image_size : Nat) (xfSeeds : Nat → XFDrawSeeds)
    (mlSeeds : Nat → MLDrawSeeds) : FSEffect :=
  if kind = ['t', 'r', 'a', 'i', 'n'] then
    let cfgs := generate_xf_dataset num_images w image_size xfSeeds
    { dirs := [['t', 'r', 'a', 'i', 'n', 'i', 'n', 'g', '_', 'd', 'a', 't', 'a']]
      files := ((List.range num_images).zip cfgs).filterMap fun ic =>
        ic.2.map fun p => xf_filename ic.1 p }
  else if kind = ['t', 'e', 's', 't'] then
    let cfgs := generate_muller_lyer_dataset num_images w image_size mlSeeds
    { dirs := [['t', 'e', 's', 't', '_', 'd', 'a', 't', 'a']]
      files := ((List.range num_images).zip cfgs).map fun ic =>
        ml_filename ic.1 ic.2 }
  else
    { dirs := [], files := [] }

/-! ### The dataset index builders and item accessors of Dataset.py -/

/-- CrossFinDataset.__init__: every directory entry matching the pattern is
decoded and appended; non-matching entries are skipped; an empty result
raises RuntimeError, modelled as the error case. -/
def crossFinIndex (listing : List (List Char)) : Except Unit (List XFRec) :=
  let recs := listing.filterMap decode_xf
  if recs.isEmpty then .error () else .ok recs

/-- MullerLyerDataset.__init__, same shape with the ml pattern. -/
def mullerLyerIndex (listing : List (List Char)) : Except Unit (List MLRec) :=
  let recs := listing.filterMap decode_ml
  if recs.isEmpty then .error () else .ok recs

/-- Bitmaps as far as the dataset accessors observe them: either an image
successfully opened from a path, or a solid single-channel image made by
Image.new with a given size and fill. -/
inductive Img where
  | loaded : List Char → Img
  | solid : Nat → Nat → Nat → Img
deriving DecidableEq

/-- The module constant IMG_SIZE of Dataset.py. -/
def IMG_SIZE : Nat := 256

/-- CrossFinDataset.__getitem__: Image.open has no surrounding try, so an
open failure propagates to the caller; on success the transform is applied
and (image, label) is returned. -/
def crossFinGetItem (openRes : Except (List Char) Img)
    (transform : Option (Img → Img)) (p : XFRec) :
    Except (List Char) (Img × Nat) := do
  let img ← openRes
  let img2 := match transform with
    | some t => t img
    | none => img
  pure (img2, p.label)

/-- MullerLyerDataset.__getitem__: an open failure is caught and replaced by
Image.new L (IMG_SIZE, IMG_SIZE) 128, and the access always returns
(image, params). -/
def mullerLyerGetItem (openRes : Except (List Char) Img)
    (transform : Option (Img → Img)) (p : MLRec) : Img × MLRec :=
  let image := match openRes with
    | .ok i => i
    | .error _ => Img.solid IMG_SIZE IMG_SIZE 128
  let image2 := match transform with
    | some t => t image
    | none => image
  (image2, p)

/-! ### The published grammar languages and parser soundness

xf_lang and ml_lang spell out the anchored regexes of Dataset.py as string
decompositions: a family tag, digit groups, the token alternations and the
png extension in the published order.  The inversion lemmas show that each
parser succeeds only on inputs of its grammar shape, so any string that
deviates from the grammar (wrong tag, wrong token, wrong field count,
non-digit in an integer field, wrong extension) decodes to no-match. -/

def allDigits (ds : List Char) : Prop :=
  ds ≠ [] ∧ ∀ c ∈ ds, isDigitChar c = true

def xf_lang (s : List Char) : Prop :=
  ∃ (d1 : List Char) (lb : Char) (lc : LengthCase) (fc : FinCase)
    (d5 d6 d7 d8 d9 d10 d11 d12 : List Char),
    allDigits d1 ∧ (lb = '0' ∨ lb = '1') ∧
    allDigits d5 ∧ allDigits d6 ∧ allDigits d7 ∧ allDigits d8 ∧
    allDigits d9 ∧ allDigits d10 ∧ allDigits d11 ∧ allDigits d12 ∧
    s = ['x', 'f', '_'] ++ (d1 ++ ('_' :: (lb :: ('_' :: (lenTok lc ++ ('_' :: (finTok fc ++ ('_' :: (d5 ++ ('_' :: (d6 ++ ('_' :: (d7 ++ ('_' :: (d8 ++ ('_' :: (d9 ++ ('_' :: (d10 ++ ('_' :: (d11 ++ ('_' :: (d12 ++ ['.', 'p', 'n', 'g'])))))))))))))))))))))))

def ml_lang (s : List Char) : Prop :=
  ∃ (d1 : List Char) (lb : Char) (td : TopDir) (bd : BotDir) (fc : FinCase)
    (d6 d7 d8 d9 d10 d11 d12 : List Char),
    allDigits d1 ∧ (lb = '0' ∨ lb = '1') ∧
    allDigits d6 ∧ allDigits d7 ∧ allDigits d8 ∧ allDigits d9 ∧
    allDigits d10 ∧ allDigits d11 ∧ allDigits d12 ∧
    s = ['m', 'l', '_'] ++ (d1 ++ ('_' :: (lb :: ('_' :: (topDirTok td ++ ('_' :: (botDirTok bd ++ ('_' :: (finTok fc ++ ('_' :: (d6 ++ ('_' :: (d7 ++ ('_' :: (d8 ++ ('_' :: (d9 ++ ('_' :: (d10 ++ ('_' :: (d11 ++ ('_' :: (d12 ++ ['.', 'p', 'n', 'g'])))))))))))))))))))))))

lemma optionBind_none {α β : Type} (f : α → Option β) :
    ((none : Option α) >>= f) = none := rfl

lemma optionBind_eq_some {α β : Type} (x : Option α) (f : α → Option β)
    (b : β) : (x >>= f) = some b ↔ ∃ a, x = some a ∧ f a = some b := by
  cases x with
  | none =>
    constructor
    · intro h
      exact absurd h (by simp [optionBind_none])
    · rintro ⟨a, ha, _⟩
      exact absurd ha (by simp)
  | some a =>
    rw [optionBind_some]
    constructor
    · intro h
      exact ⟨a, rfl, h⟩
    · rintro ⟨a2, ha2, h⟩
      obtain rfl : a = a2 := by simpa using ha2
      exact h

lemma parseLit_inv : ∀ l s r : List Char, parseLit l s = some r → s = l ++ r := by
  intro l
  induction l with
  | nil =>
    intro s r h
    simp only [parseLit, Option.some.injEq] at h
    simp [h]
  | cons c cs ih =>
    intro s r h
    match s with
    | [] => simp [parseLit] at h
    | d :: ds =>
      simp only [parseLit] at h
      by_cases hcd : c = d
      · rw [if_pos hcd] at h
        subst hcd
        rw [ih ds r h]
        simp
      · rw [if_neg hcd] at h
        exact absurd h (by simp)

lemma takeDigits_inv : ∀ s ds rest : List Char, takeDigits s = (ds, rest) →
    s = ds ++ rest ∧ ∀ c ∈ ds, isDigitChar c = true := by
  intro s
  induction s with
  | nil =>
    intro ds rest h
    simp only [takeDigits, Prod.mk.injEq] at h
    obtain ⟨h1, h2⟩ := h
    subst h1
    subst h2
    simp
  | cons c cs ih =>
    intro ds rest h
    by_cases hc : isDigitChar c = true
    · simp only [takeDigits] at h
      rw [if_pos hc] at h
      simp only [Prod.mk.injEq] at h
      obtain ⟨h1, h2⟩ := h
      obtain ⟨hs, hd⟩ := ih (takeDigits cs).1 (takeDigits cs).2 rfl
      subst h1
      subst h2
      constructor
      · rw [List.cons_append, ← hs]
      · intro x hx
        rcases List.mem_cons.mp hx with rfl | hx2
        · exact hc
        · exact hd x hx2
    · simp only [takeDigits] at h
      rw [if_neg hc] at h
      simp only [Prod.mk.injEq] at h
      obtain ⟨h1, h2⟩ := h
      subst h1
      subst h2
      simp

lemma parseDigits_inv (s : List Char) (n : Nat) (r : List Char)
    (h : parseDigits s = some (n, r)) : ∃ ds, allDigits ds ∧ s = ds ++ r := by
  unfold parseDigits at h
  rcases htd : takeDigits s with ⟨ds, rest⟩
  rw [htd] at h
  cases ds with
  | nil => simp at h
  | cons d ds2 =>
    simp only [Option.some.injEq, Prod.mk.injEq] at h
    obtain ⟨hs, hdig⟩ := takeDigits_inv s (d :: ds2) rest htd
    exact ⟨d :: ds2, ⟨by simp, hdig⟩, by rw [hs, h.2]⟩

lemma parseLabel_inv (s : List Char) (p : Nat × List Char)
    (h : parseLabel s = some p) :
    ∃ lb, (lb = '0' ∨ lb = '1') ∧ s = lb :: p.2 := by
  match s with
  | [] => simp [parseLabel] at h
  | c :: cs =>
    simp only [parseLabel] at h
    by_cases h0 : c = '0'
    · rw [if_pos h0] at h
      obtain rfl : (0, cs) = p := by simpa using h
      exact ⟨c, Or.inl h0, rfl⟩
    · rw [if_neg h0] at h
      by_cases h1 : c = '1'
      · rw [if_pos h1] at h
        obtain rfl : (1, cs) = p := by simpa using h
        exact ⟨c, Or.inr h1, rfl⟩
      · rw [if_neg h1] at h
        exact absurd h (by simp)

lemma parseLenCase_inv (s : List Char) (p : LengthCase × List Char)
    (h : parseLenCase s = some p) : s = lenTok p.1 ++ p.2 := by
  unfold parseLenCase at h
  rcases hE : parseLit (lenTok .EQUAL) s with _ | rE
  all_goals rw [hE] at h
  · rcases hL : parseLit (lenTok .LONG) s with _ | rL
    all_goals rw [hL] at h
    · rcases hS : parseLit (lenTok .SHORT) s with _ | rS
      all_goals rw [hS] at h
      · exact absurd h (by simp)
      · obtain rfl : (LengthCase.SHORT, rS) = p := by simpa using h
        exact parseLit_inv _ _ _ hS
    · obtain rfl : (LengthCase.LONG, rL) = p := by simpa using h
      exact parseLit_inv _ _ _ hL
  · obtain rfl : (LengthCase.EQUAL, rE) = p := by simpa using h
    exact parseLit_inv _ _ _ hE

lemma parseFinCase_inv (s : List Char) (p : FinCase × List Char)
    (h : parseFinCase s = some p) : s = finTok p.1 ++ p.2 := by
  unfold parseFinCase at h
  rcases hS : parseLit (finTok .SAME_CONFIG) s with _ | rS
  all_goals rw [hS] at h
  · rcases hD : parseLit (finTok .DIFF_CONFIG) s with _ | rD
    all_goals rw [hD] at h
    · exact absurd h (by simp)
    · obtain rfl : (FinCase.DIFF_CONFIG, rD) = p := by simpa using h
      exact parseLit_inv _ _ _ hD
  · obtain rfl : (FinCase.SAME_CONFIG, rS) = p := by simpa using h
    exact parseLit_inv _ _ _ hS

lemma parseTopDir_inv (s : List Char) (p : TopDir × List Char)
    (h : parseTopDir s = some p) : s = topDirTok p.1 ++ p.2 := by
  unfold parseTopDir at h
  rcases hL : parseLit (topDirTok .LONG) s with _ | rL
  all_goals rw [hL] at h
  · rcases hS : parseLit (topDirTok .SHORT) s with _ | rS
    all_goals rw [hS] at h
    · exact absurd h (by simp)
    · obtain rfl : (TopDir.SHORT, rS) = p := by simpa using h
      exact parseLit_inv _ _ _ hS
  · obtain rfl : (TopDir.LONG, rL) = p := by simpa using h
    exact parseLit_inv _ _ _ hL

lemma parseBotDir_inv (s : List Char) (p : BotDir × List Char)
    (h : parseBotDir s = some p) : s = botDirTok p.1 ++ p.2 := by
  unfold parseBotDir at h
  rcases hD : parseLit (botDirTok .DIFF_DIR) s with _ | rD
  all_goals rw [hD] at h
  · rcases hS : parseLit (botDirTok .SAME_DIR) s with _ | rS
    all_goals rw [hS] at h
    · exact absurd h (by simp)
    · obtain rfl : (BotDir.SAME_DIR, rS) = p := by simpa using h
      exact parseLit_inv _ _ _ hS
  · obtain rfl : (BotDir.DIFF_DIR, rD) = p := by simpa using h
    exact parseLit_inv _ _ _ hD

lemma parseNat4_inv (s : List Char) (q : (Nat × Nat × Nat × Nat) × List Char)
    (h : parseNat4 s = some q) :
    ∃ dA dB dC dD, allDigits dA ∧ allDigits dB ∧ allDigits dC ∧ allDigits dD ∧
      s = dA ++ ('_' :: (dB ++ ('_' :: (dC ++ ('_' :: (dD ++ q.2)))))) := by
  simp only [parseNat4, optionBind_eq_some] at h
  obtain ⟨a, ha, s1, hs1, b, hb, s2, hs2, c, hc, s3, hs3, d, hd, hfin⟩ := h
  obtain rfl : ((a.1, b.1, c.1, d.1), d.2) = q := by simpa using hfin
  obtain ⟨dA, hA, hsa⟩ := parseDigits_inv s a.1 a.2 ha
  obtain ⟨dB, hB, hsb⟩ := parseDigits_inv s1 b.1 b.2 hb
  obtain ⟨dC, hC, hsc⟩ := parseDigits_inv s2 c.1 c.2 hc
  obtain ⟨dD, hD, hsd⟩ := parseDigits_inv s3 d.1 d.2 hd
  refine ⟨dA, dB, dC, dD, hA, hB, hC, hD, ?_⟩
  rw [hsa, parseLit_inv _ _ _ hs1, hsb, parseLit_inv _ _ _ hs2, hsc,
    parseLit_inv _ _ _ hs3, hsd]
  simp

lemma parseNat3_inv (s : List Char) (q : (Nat × Nat × Nat) × List Char)
    (h : parseNat3 s = some q) :
    ∃ dA dB dC, allDigits dA ∧ allDigits dB ∧ allDigits dC ∧
      s = dA ++ ('_' :: (dB ++ ('_' :: (dC ++ q.2)))) := by
  simp only [parseNat3, optionBind_eq_some] at h
  obtain ⟨a, ha, s1, hs1, b, hb, s2, hs2, c, hc, hfin⟩ := h
  obtain rfl : ((a.1, b.1, c.1), c.2) = q := by simpa using hfin
  obtain ⟨dA, hA, hsa⟩ := parseDigits_inv s a.1 a.2 ha
  obtain ⟨dB, hB, hsb⟩ := parseDigits_inv s1 b.1 b.2 hb
  obtain ⟨dC, hC, hsc⟩ := parseDigits_inv s2 c.1 c.2 hc
  refine ⟨dA, dB, dC, hA, hB, hC, ?_⟩
  rw [hsa, parseLit_inv _ _ _ hs1, hsb, parseLit_inv _ _ _ hs2, hsc]
  simp

lemma decode_xf_head_inv (s : List Char)
    (h : (Nat × Nat × LengthCase × FinCase) × List Char)
    (hd : decode_xf_head s = some h) :
    ∃ d1 lb, allDigits d1 ∧ (lb = '0' ∨ lb = '1') ∧
      s = ['x', 'f', '_'] ++ (d1 ++ ('_' :: (lb :: ('_' ::
        (lenTok h.1.2.2.1 ++ ('_' :: (finTok h.1.2.2.2 ++ ('_' :: h.2)))))))) := by
  simp only [decode_xf_head, optionBind_eq_some] at hd
  obtain ⟨s0, hs0, p1, hp1, s1, hs1, p2, hp2, s2, hs2, p3, hp3, s3, hs3,
    p4, hp4, s4, hs4, hfin⟩ := hd
  obtain rfl : ((p1.1, p2.1, p3.1, p4.1), s4) = h := by simpa using hfin
  obtain ⟨d1, hD1, hsd1⟩ := parseDigits_inv s0 p1.1 p1.2 hp1
  obtain ⟨lb, hlb, hslb⟩ := parseLabel_inv s1 p2 hp2
  refine ⟨d1, lb, hD1, hlb, ?_⟩
  rw [parseLit_inv _ _ _ hs0, hsd1, parseLit_inv _ _ _ hs1, hslb,
    parseLit_inv _ _ _ hs2, parseLenCase_inv _ _ hp3,
    parseLit_inv _ _ _ hs3, parseFinCase_inv _ _ hp4,
    parseLit_inv _ _ _ hs4]
  simp

lemma decode_ml_head_inv (s : List Char)
    (h : (Nat × Nat × TopDir × BotDir × FinCase) × List Char)
    (hd : decode_ml_head s = some h) :
    ∃ d1 lb, allDigits d1 ∧ (lb = '0' ∨ lb = '1') ∧
      s = ['m', 'l', '_'] ++ (d1 ++ ('_' :: (lb :: ('_' ::
        (topDirTok h.1.2.2.1 ++ ('_' :: (botDirTok h.1.2.2.2.1 ++ ('_' ::
        (finTok h.1.2.2.2.2 ++ ('_' :: h.2)))))))))) := by
  simp only [decode_ml_head, optionBind_eq_some] at hd
  obtain ⟨s0, hs0, p1, hp1, s1, hs1, p2, hp2, s2, hs2, p3, hp3, s3, hs3,
    p4, hp4, s4, hs4, p5, hp5, s5, hs5, hfin⟩ := hd
  obtain rfl : ((p1.1, p2.1, p3.1, p4.1, p5.1), s5) = h := by simpa using hfin
  obtain ⟨d1, hD1, hsd1⟩ := parseDigits_inv s0 p1.1 p1.2 hp1
  obtain ⟨lb, hlb, hslb⟩ := parseLabel_inv s1 p2 hp2
  refine ⟨d1, lb, hD1, hlb, ?_⟩
  rw [parseLit_inv _ _ _ hs0, hsd1, parseLit_inv _ _ _ hs1, hslb,
    parseLit_inv _ _ _ hs2, parseTopDir_inv _ _ hp3,
    parseLit_inv _ _ _ hs3, parseBotDir_inv _ _ hp4,
    parseLit_inv _ _ _ hs4, parseFinCase_inv _ _ hp5,
    parseLit_inv _ _ _ hs5]
  simp

lemma decode_xf_sound (s : List Char) (r : XFRec)
    (h : decode_xf s = some r) : xf_lang s := by
  simp only [decode_xf, optionBind_eq_some] at h
  obtain ⟨hd, hhd, q1, hq1, s8, hs8, q2, hq2, s12, hs12, hfin⟩ := h
  by_cases hnil : s12 = []
  case neg => rw [if_neg hnil] at hfin; exact absurd hfin (by simp)
  subst hnil
  obtain ⟨d1, lb, hD1, hlb, hshape⟩ := decode_xf_head_inv s hd hhd
  obtain ⟨d5, d6, d7, d8, h5, h6, h7, h8, hq1s⟩ := parseNat4_inv hd.2 q1 hq1
  obtain ⟨d9, d10, d11, d12, h9, h10, h11, h12, hq2s⟩ := parseNat4_inv s8 q2 hq2
  refine ⟨d1, lb, hd.1.2.2.1, hd.1.2.2.2, d5, d6, d7, d8, d9, d10, d11, d12,
    hD1, hlb, h5, h6, h7, h8, h9, h10, h11, h12, ?_⟩
  rw [hshape, hq1s, parseLit_inv _ _ _ hs8, hq2s, parseLit_inv _ _ _ hs12]
  simp

lemma decode_ml_sound (s : List Char) (r : MLRec)
    (h : decode_ml s = some r) : ml_lang s := by
  simp only [decode_ml, optionBind_eq_some] at h
  obtain ⟨hd, hhd, q1, hq1, s9, hs9, q2, hq2, s12, hs12, hfin⟩ := h
  by_cases hnil : s12 = []
  case neg => rw [if_neg hnil] at hfin; exact absurd hfin (by simp)
  subst hnil
  obtain ⟨d1, lb, hD1, hlb, hshape⟩ := decode_ml_head_inv s hd hhd
  obtain ⟨d6, d7, d8, d9, h6, h7, h8, h9, hq1s⟩ := parseNat4_inv hd.2 q1 hq1
  obtain ⟨d10, d11, d12, h10, h11, h12, hq2s⟩ := parseNat3_inv s9 q2 hq2
  refine ⟨d1, lb, hd.1.2.2.1, hd.1.2.2.2.1, hd.1.2.2.2.2, d6, d7, d8, d9,
    d10, d11, d12, hD1, hlb, h6, h7, h8, h9, h10, h11, h12, ?_⟩
  rw [hshape, hq1s, parseLit_inv _ _ _ hs9, hq2s, parseLit_inv _ _ _ hs12]
  simp

lemma decode_ml_head_of_x (t : List Char) :
    decode_ml_head ('x' :: t) = none := by
  unfold decode_ml_head
  rw [parseLit_head_ne 'm' 'x' _ _ (by decide)]
  rfl

lemma decode_xf_head_of_m (t : List Char) :
    decode_xf_head ('m' :: t) = none := by
  unfold decode_xf_head
  rw [parseLit_head_ne 'x' 'm' _ _ (by decide)]
  rfl

lemma decode_ml_none_of_head_none (s : List Char)
    (h : decode_ml_head s = none) : decode_ml s = none := by
  unfold decode_ml
  rw [h]
  rfl

lemma decode_xf_none_of_head_none (s : List Char)
    (h : decode_xf_head s = none) : decode_xf s = none := by
  unfold decode_xf
  rw [h]
  rfl

/-! ### Sampler facts shared by several invariants -/

lemma choices2_mem {α : Type} (x y : α) (a b r : Nat) :
    choices2 x y a b r = x ∨ choices2 x y a b r = y := by
  unfold choices2
  split
  · exact Or.inl rfl
  · exact Or.inr rfl

lemma randint_band (lo len r : Nat) (hlo : lo ≤ 15) (hlen : 45 ≤ len) :
    lo ≤ randint lo (min 35 (len / 3)) r ∧
      randint lo (min 35 (len / 3)) r ≤ min 35 (len / 3) :=
  randint_mem lo (min 35 (len / 3)) r (by omega)

/-- The Cross-Fin fin-length bands as the code enforces them: the top fin is
drawn in the top shaft's band; the bottom fin is drawn in the bottom shaft's
band only under DIFF_CONFIG, and is a copy of the top fin under
SAME_CONFIG. -/
lemma xf_fin_bands (lbl : Nat) (lc : LengthCase) (fc : FinCase)
    (size : Nat) (s : XFSeeds) (p : XFParams)
    (hmin : min_length ≤ max_length size)
    (hp : generate_xf_image lbl lc fc size s = some p) :
    (10 ≤ p.top_fin_length ∧ p.top_fin_length ≤ min 35 (p.top_length / 3)) ∧
    (fc = .DIFF_CONFIG → 10 ≤ p.bottom_fin_length ∧
      p.bottom_fin_length ≤ min 35 (p.bottom_length / 3)) ∧
    (fc = .SAME_CONFIG → p.bottom_fin_length = p.top_fin_length) := by
  have hm : min_length = 45 := rfl
  have h1 := randint_mem min_length (max_length size) s.rlen hmin
  by_cases hl : lbl = 1
  · subst hl
    cases lc with
    | EQUAL => simp [generate_xf_image] at hp
    | LONG =>
      cases fc <;> simp [generate_xf_image] at hp <;> subst hp
      · exact ⟨randint_band 10 _ s.rtf (by omega) (by omega),
          by simp, fun _ => rfl⟩
      · exact ⟨randint_band 10 _ s.rtf (by omega) (by omega),
          fun _ => randint_band 10 _ s.rbf (by omega) (by omega), by simp⟩
    | SHORT =>
      cases fc <;> simp [generate_xf_image] at hp <;> subst hp
      · exact ⟨randint_band 10 _ s.rtf (by omega) (by omega),
          by simp, fun _ => rfl⟩
      · exact ⟨randint_band 10 _ s.rtf (by omega) (by omega),
          fun _ => randint_band 10 _ s.rbf (by omega) (by omega), by simp⟩
  · cases fc <;> simp [generate_xf_image, hl] at hp <;> subst hp
    · exact ⟨randint_band 10 _ s.rtf (by omega) (by omega),
        by simp, fun _ => rfl⟩
    · exact ⟨randint_band 10 _ s.rtf (by omega) (by omega),
        fun _ => randint_band 10 _ s.rbf (by omega) (by omega), by simp⟩

/-- The Muller-Lyer fin bands: both shafts share one length, so every fin of
both fin cases lies in the single shaft band. -/
lemma ml_fin_bands (td : TopDir) (bd : BotDir) (fc : FinCase) (size : Nat)
    (s : MLSeeds) (hmin : min_length ≤ max_length size) :
    (15 ≤ (generate_muller_lyer_image td bd fc size s).top_fin_length ∧
      (generate_muller_lyer_image td bd fc size s).top_fin_length
        ≤ min 35 ((generate_muller_lyer_image td bd fc size s).shaft_length / 3)) ∧
    (15 ≤ (generate_muller_lyer_image td bd fc size s).bottom_fin_length ∧
      (generate_muller_lyer_image td bd fc size s).bottom_fin_length
        ≤ min 35 ((generate_muller_lyer_image td bd fc size s).shaft_length / 3)) := by
  have hm : min_length = 45 := rfl
  have h1 := randint_mem min_length (max_length size) s.rshaft hmin
  cases fc with
  | SAME_CONFIG =>
    simp only [generate_muller_lyer_image]
    exact ⟨randint_band 15 _ s.rtf (by omega) (by omega),
      randint_band 15 _ s.rtf (by omega) (by omega)⟩
  | DIFF_CONFIG =>
    simp only [generate_muller_lyer_image]
    exact ⟨randint_band 15 _ s.rtf (by omega) (by omega),
      randint_band 15 _ s.rbf (by omega) (by omega)⟩

/-! ### The claims -/

/-- C1: for every family and every validly sampled parameter record (its
label is 0 or 1, as every sampled record's is), decoding the encoded
filename reproduces the record exactly: the fixed-order underscore-joined
name written by generate_and_save is parsed back by the dataset's anchored
grammar into the same record. -/
theorem c1_round_trip :
    (∀ r : XFRec, r.label ≤ 1 → decode_xf (encode_xf r) = some r) ∧
    (∀ r : MLRec, r.label ≤ 1 → decode_ml (encode_ml r) = some r) :=
  ⟨decode_xf_encode_xf, decode_ml_encode_ml⟩

theorem c1_round_trip_witness :
    ((⟨0, 1, .LONG, .DIFF_CONFIG, 120, 115, 15, 45, 18, 50, 60, 200⟩ : XFRec).label ≤ 1 ∧
      decode_xf (encode_xf ⟨0, 1, .LONG, .DIFF_CONFIG, 120, 115, 15, 45, 18, 50, 60, 200⟩)
        = some ⟨0, 1, .LONG, .DIFF_CONFIG, 120, 115, 15, 45, 18, 50, 60, 200⟩) ∧
    ((⟨3, 0, .SHORT, .DIFF_DIR, .DIFF_CONFIG, 99, 15, 45, 18, 50, 60, 200⟩ : MLRec).label ≤ 1 ∧
      decode_ml (encode_ml ⟨3, 0, .SHORT, .DIFF_DIR, .DIFF_CONFIG, 99, 15, 45, 18, 50, 60, 200⟩)
        = some ⟨3, 0, .SHORT, .DIFF_DIR, .DIFF_CONFIG, 99, 15, 45, 18, 50, 60, 200⟩) :=
  ⟨⟨by decide, c1_round_trip.1 _ (by decide)⟩,
    ⟨by decide, c1_round_trip.2 _ (by decide)⟩⟩

/-- C2 counterexample: a reachable Cross-Fin sample (label 1, LONG,
SAME_CONFIG, image size 256) has top_length 105 and bottom_length 45, and
its bottom fin, copied from the top fin, has length 35, which is outside
the bottom shaft's documented band since min 35 (45 / 3) = 15.  So it is
false that every fin length lies in the band of the shaft it is attached
to. -/
theorem c2_counterexample :
    generate_xf_image 1 .LONG .SAME_CONFIG 256 ⟨0, 0, 60, 58, 25, 0, 0, 0⟩
      = some ⟨1, .LONG, .SAME_CONFIG, 105, 45, 35, 15, 35, 15, 51, 153⟩ ∧
    ¬ ((35 : Nat) ≤ min 35 (45 / 3)) := by
  decide

/-- C2 amended: every fin length drawn by its own randint lies in the band
of its own shaft (lo = 10 for Cross-Fin, 15 for Muller-Lyer); under
SAME_CONFIG the bottom fin is a copy of the top fin, hence lies in the TOP
shaft's band, which can exceed the bottom shaft's band when a Cross-Fin
label-1 sample has unequal shafts.  For Muller-Lyer both shafts share one
length, so every fin lies in the single shaft band. -/
theorem c2_fin_bands :
    (∀ lbl lc fc size s p, min_length ≤ max_length size →
      generate_xf_image lbl lc fc size s = some p →
      (10 ≤ p.top_fin_length ∧ p.top_fin_length ≤ min 35 (p.top_length / 3)) ∧
      (fc = .DIFF_CONFIG → 10 ≤ p.bottom_fin_length ∧
        p.bottom_fin_length ≤ min 35 (p.bottom_length / 3)) ∧
      (fc = .SAME_CONFIG → p.bottom_fin_length = p.top_fin_length)) ∧
    (∀ td bd fc size s, min_length ≤ max_length size →
      (15 ≤ (generate_muller_lyer_image td bd fc size s).top_fin_length ∧
        (generate_muller_lyer_image td bd fc size s).top_fin_length
          ≤ min 35 ((generate_muller_lyer_image td bd fc size s).shaft_length / 3)) ∧
      (15 ≤ (generate_muller_lyer_image td bd fc size s).bottom_fin_length ∧
        (generate_muller_lyer_image td bd fc size s).bottom_fin_length
          ≤ min 35 ((generate_muller_lyer_image td bd fc size s).shaft_length / 3))) :=
  ⟨xf_fin_bands, ml_fin_bands⟩

theorem c2_fin_bands_witness :
    min_length ≤ max_length 256 ∧
    ((10 ≤ (35 : Nat) ∧ (35 : Nat) ≤ min 35 (105 / 3)) ∧
      (FinCase.SAME_CONFIG = .DIFF_CONFIG → 10 ≤ (35 : Nat) ∧
        (35 : Nat) ≤ min 35 (45 / 3)) ∧
      (FinCase.SAME_CONFIG = .SAME_CONFIG → (35 : Nat) = 35)) :=
  ⟨by decide,
    c2_fin_bands.1 1 .LONG .SAME_CONFIG 256 ⟨0, 0, 60, 58, 25, 0, 0, 0⟩
      ⟨1, .LONG, .SAME_CONFIG, 105, 45, 35, 15, 35, 15, 51, 153⟩
      (by decide) (by decide)⟩

/-- C3: the claim describes the docstrings ((0, 1, LONG, SHORT,
SAME_CONFIG, DIFF_CONFIG) for Cross-Fin, (LONG, SHORT, SAME_DIR, DIFF_DIR,
SAME_CONFIG, DIFF_CONFIG) for Muller-Lyer), but the code contradicts them:
the Cross-Fin label is drawn by an unweighted randint(0, 1) that ignores
weight positions 0-1 entirely, so with case_ratio = (0, 1, 1, 1, 1, 1) a
label-0 sample is still produced; and the Muller-Lyer bottom_dir_case is
drawn from case_ratio[4:6], the same slice as fin_case, so with case_ratio
= (1, 1, 1, 1, 0, 1), where the docstring gives SAME_DIR and DIFF_DIR
positive weight at positions 2-3, SAME_DIR can never be drawn. -/
theorem c3_case_weights_bug :
    (xf_sample ⟨0, 1, 1, 1, 1, 1⟩ 256 ⟨0, 0, 0, ⟨0, 0, 0, 0, 0, 0, 0, 0⟩⟩
      = some ⟨0, .EQUAL, .SAME_CONFIG, 45, 45, 10, 15, 10, 15, 51, 153⟩) ∧
    (∀ s : MLDrawSeeds,
      (ml_sample ⟨1, 1, 1, 1, 0, 1⟩ 256 s).bottom_dir_case = .DIFF_DIR) := by
  refine ⟨by decide, fun s => ?_⟩
  simp [ml_sample, generate_muller_lyer_image, choices2, Nat.mod_one]

/-- C4: for a label-1 Cross-Fin sample the primary shaft (top for LONG,
bottom for SHORT) is the randint draw over the closed interval from 45 to
int(0.8 * image_size), and the other shaft equals max 45 (primary - delta)
for the delta draw over 2..62; whenever the clamp floor is not hit the
primary shaft is strictly longer. -/
theorem c4_primary_shaft :
    ∀ lc fc size s p, min_length ≤ max_length size →
      lc = .LONG ∨ lc = .SHORT →
      generate_xf_image 1 lc fc size s = some p →
      ∃ primary other : Nat,
        ((lc = .LONG ∧ primary = p.top_length ∧ other = p.bottom_length) ∨
          (lc = .SHORT ∧ primary = p.bottom_length ∧ other = p.top_length)) ∧
        primary = randint min_length (max_length size) s.rlen ∧
        min_length ≤ primary ∧ primary ≤ max_length size ∧
        ∃ delta, 2 ≤ delta ∧ delta ≤ 62 ∧
          other = max min_length (primary - delta) ∧
          (min_length ≤ primary - delta → other < primary) := by
  intro lc fc size s p hmin hlc hp
  have hm : min_length = 45 := rfl
  have hlen := randint_mem min_length (max_length size) s.rlen hmin
  have hdel := randint_mem 2 62 s.rdelta (by omega)
  rcases hlc with rfl | rfl
  · cases fc <;> simp [generate_xf_image] at hp <;> subst hp <;>
      exact ⟨randint min_length (max_length size) s.rlen,
        max min_length (randint min_length (max_length size) s.rlen
          - randint 2 62 s.rdelta),
        Or.inl ⟨rfl, rfl, rfl⟩, rfl, hlen.1, hlen.2,
        randint 2 62 s.rdelta, hdel.1, hdel.2, rfl, by omega⟩
  · cases fc <;> simp [generate_xf_image] at hp <;> subst hp <;>
      exact ⟨randint min_length (max_length size) s.rlen,
        max min_length (randint min_length (max_length size) s.rlen
          - randint 2 62 s.rdelta),
        Or.inr ⟨rfl, rfl, rfl⟩, rfl, hlen.1, hlen.2,
        randint 2 62 s.rdelta, hdel.1, hdel.2, rfl, by omega⟩

theorem c4_primary_shaft_witness :
    min_length ≤ max_length 256 ∧
    (LengthCase.LONG = .LONG ∨ LengthCase.LONG = .SHORT) ∧
    (∃ primary other : Nat,
      ((LengthCase.LONG = .LONG ∧ primary = 105 ∧ other = 45) ∨
        (LengthCase.LONG = .SHORT ∧ primary = 45 ∧ other = 105)) ∧
      primary = randint min_length (max_length 256) 60 ∧
      min_length ≤ primary ∧ primary ≤ max_length 256 ∧
      ∃ delta, 2 ≤ delta ∧ delta ≤ 62 ∧
        other = max min_length (primary - delta) ∧
        (min_length ≤ primary - delta → other < primary)) :=
  ⟨by decide, Or.inl rfl,
    c4_primary_shaft .LONG .SAME_CONFIG 256 ⟨0, 0, 60, 58, 25, 0, 0, 0⟩
      ⟨1, .LONG, .SAME_CONFIG, 105, 45, 35, 15, 35, 15, 51, 153⟩
      (by decide) (Or.inl rfl) (by decide)⟩

/-- C5 counterexample: a reachable label-1 LONG sample has both shafts
clamped to equal length 45, so label = 0 iff top_length = bottom_length is
false on the code: this record has label 1, length_case LONG, and
top_length = bottom_length = 45. -/
theorem c5_counterexample :
    xf_sample ⟨1, 1, 1, 1, 1, 2⟩ 256 ⟨1, 0, 0, ⟨0, 0, 0, 0, 0, 0, 0, 0⟩⟩
      = some ⟨1, .LONG, .SAME_CONFIG, 45, 45, 10, 15, 10, 15, 51, 153⟩ ∧
    ¬ (((1 : Nat) = 0) ↔ ((45 : Nat) = 45)) := by
  decide

/-- C5 amended: for every record produced by the batch sampler, label = 0
iff length_case = EQUAL, and label 0 implies equal shaft lengths; the
converse of the last implication fails when the label-1 clamp floor makes
the shafts equal. -/
theorem c5_label_equal :
    ∀ w size s p, xf_sample w size s = some p →
      (p.label = 0 ↔ p.length_case = .EQUAL) ∧
      (p.label = 0 → p.top_length = p.bottom_length) := by
  intro w size s p hp
  simp only [xf_sample] at hp
  by_cases hl : randint 0 1 s.rlbl = 1
  · rw [hl] at hp
    simp only [if_pos rfl] at hp
    rcases choices2_mem LengthCase.LONG .SHORT w.w2 w.w3 s.rlen with hc | hc <;>
      rw [hc] at hp <;>
      rcases choices2_mem FinCase.SAME_CONFIG .DIFF_CONFIG w.w4 w.w5 s.rfin
        with hf | hf <;>
      rw [hf] at hp <;> simp [generate_xf_image] at hp <;> subst hp <;> simp
  · have h0 : randint 0 1 s.rlbl = 0 := by
      unfold randint at hl ⊢
      omega
    rw [h0] at hp
    simp only [if_neg (by omega : ¬ (0 : Nat) = 1)] at hp
    rcases choices2_mem FinCase.SAME_CONFIG .DIFF_CONFIG w.w4 w.w5 s.rfin
      with hf | hf <;>
      rw [hf] at hp <;> simp [generate_xf_image] at hp <;> subst hp <;> simp

theorem c5_label_equal_witness :
    (((1 : Nat) = 0 ↔ LengthCase.LONG = .EQUAL) ∧
      ((1 : Nat) = 0 → (45 : Nat) = 45)) :=
  c5_label_equal ⟨1, 1, 1, 1, 1, 2⟩ 256 ⟨1, 0, 0, ⟨0, 0, 0, 0, 0, 0, 0, 0⟩⟩
    ⟨1, .LONG, .SAME_CONFIG, 45, 45, 10, 15, 10, 15, 51, 153⟩ (by decide)

/-- C6: under SAME_CONFIG both generators copy the top ornament's length
and angle to the bottom ornament, for every label, case and seed. -/
theorem c6_same_config :
    (∀ lbl lc size s p,
      generate_xf_image lbl lc .SAME_CONFIG size s = some p →
      p.bottom_fin_length = p.top_fin_length ∧
      p.bottom_fin_angle_deg = p.top_fin_angle_deg) ∧
    (∀ td bd size s,
      (generate_muller_lyer_image td bd .SAME_CONFIG size s).bottom_fin_length
        = (generate_muller_lyer_image td bd .SAME_CONFIG size s).top_fin_length ∧
      (generate_muller_lyer_image td bd .SAME_CONFIG size s).bottom_fin_angle_deg
        = (generate_muller_lyer_image td bd .SAME_CONFIG size s).top_fin_angle_deg) := by
  constructor
  · intro lbl lc size s p hp
    by_cases hl : lbl = 1
    · subst hl
      cases lc with
      | EQUAL => simp [generate_xf_image] at hp
      | LONG => simp [generate_xf_image] at hp; subst hp; exact ⟨rfl, rfl⟩
      | SHORT => simp [generate_xf_image] at hp; subst hp; exact ⟨rfl, rfl⟩
    · simp [generate_xf_image, hl] at hp
      subst hp
      exact ⟨rfl, rfl⟩
  · intro td bd size s
    exact ⟨rfl, rfl⟩

theorem c6_same_config_witness :
    ((35 : Nat) = 35 ∧ (15 : Nat) = 15) :=
  c6_same_config.1 1 .LONG 256 ⟨0, 0, 60, 58, 25, 0, 0, 0⟩
    ⟨1, .LONG, .SAME_CONFIG, 105, 45, 35, 15, 35, 15, 51, 153⟩ (by decide)

/-- C7: on an image-open failure the Muller-Lyer accessor substitutes the
fixed mid-gray placeholder Image.new L (IMG_SIZE, IMG_SIZE) 128 and returns
normally, while the Cross-Fin accessor propagates the failure to the
caller whatever the transform. -/
theorem c7_load_failure :
    (∀ e p, mullerLyerGetItem (Except.error e) none p
      = (Img.solid IMG_SIZE IMG_SIZE 128, p)) ∧
    (∀ e transform p, crossFinGetItem (Except.error e) transform p
      = Except.error e) := by
  exact ⟨fun e p => rfl, fun e transform p => rfl⟩

/-- C8: the two family grammars are mutually exclusive and strict: a string
accepted by the Cross-Fin decoder is rejected by the Muller-Lyer decoder
and vice versa (their two-character tags differ), and each decoder accepts
only strings of its published anchored grammar, so any string deviating
from that grammar (wrong tag, wrong token, wrong field count, a non-digit
in an integer field, wrong extension) decodes to no-match. -/
theorem c8_grammar :
    (∀ s r, decode_xf s = some r → decode_ml s = none) ∧
    (∀ s r, decode_ml s = some r → decode_xf s = none) ∧
    (∀ s r, decode_xf s = some r → xf_lang s) ∧
    (∀ s r, decode_ml s = some r → ml_lang s) := by
  refine ⟨?_, ?_, decode_xf_sound, decode_ml_sound⟩
  · intro s r h
    obtain ⟨d1, lb, lc, fc, d5, d6, d7, d8, d9, d10, d11, d12,
      _, _, _, _, _, _, _, _, _, _, hs⟩ := decode_xf_sound s r h
    rw [hs]
    exact decode_ml_none_of_head_none _ (decode_ml_head_of_x _)
  · intro s r h
    obtain ⟨d1, lb, td, bd, fc, d6, d7, d8, d9, d10, d11, d12,
      _, _, _, _, _, _, _, _, _, hs⟩ := decode_ml_sound s r h
    rw [hs]
    exact decode_xf_none_of_head_none _ (decode_xf_head_of_m _)

theorem c8_grammar_witness :
    decode_ml ['x', 'f', '_', '7', '_', '1', '_', 'S', 'H', 'O', 'R', 'T',
        '_', 'D', 'I', 'F', 'F', '_', 'C', 'O', 'N', 'F', 'I', 'G', '_',
        '9', '0', '_', '8', '0', '_', '1', '2', '_', '3', '0', '_', '1',
        '4', '_', '4', '0', '_', '7', '0', '_', '1', '9', '0', '.', 'p',
        'n', 'g'] = none ∧
    decode_xf ['m', 'l', '_', '2', '_', '0', '_', 'S', 'H', 'O', 'R', 'T',
        '_', 'D', 'I', 'F', 'F', '_', 'D', 'I', 'R', '_', 'S', 'A', 'M',
        'E', '_', 'C', 'O', 'N', 'F', 'I', 'G', '_', '8', '8', '_', '1',
        '6', '_', '2', '5', '_', '1', '7', '_', '3', '5', '_', '6', '5',
        '_', '1', '8', '0', '.', 'p', 'n', 'g'] = none ∧
    xf_lang ['x', 'f', '_', '7', '_', '1', '_', 'S', 'H', 'O', 'R', 'T',
        '_', 'D', 'I', 'F', 'F', '_', 'C', 'O', 'N', 'F', 'I', 'G', '_',
        '9', '0', '_', '8', '0', '_', '1', '2', '_', '3', '0', '_', '1',
        '4', '_', '4', '0', '_', '7', '0', '_', '1', '9', '0', '.', 'p',
        'n', 'g'] ∧
    ml_lang ['m', 'l', '_', '2', '_', '0', '_', 'S', 'H', 'O', 'R', 'T',
        '_', 'D', 'I', 'F', 'F', '_', 'D', 'I', 'R', '_', 'S', 'A', 'M',
        'E', '_', 'C', 'O', 'N', 'F', 'I', 'G', '_', '8', '8', '_', '1',
        '6', '_', '2', '5', '_', '1', '7', '_', '3', '5', '_', '6', '5',
        '_', '1', '8', '0', '.', 'p', 'n', 'g'] :=
  ⟨c8_grammar.1 _ ⟨7, 1, .SHORT, .DIFF_CONFIG, 90, 80, 12, 30, 14, 40, 70, 190⟩
      (by decide),
    c8_grammar.2.1 _ ⟨2, 0, .SHORT, .DIFF_DIR, .SAME_CONFIG, 88, 16, 25, 17,
      35, 65, 180⟩ (by decide),
    c8_grammar.2.2.1 _ ⟨7, 1, .SHORT, .DIFF_CONFIG, 90, 80, 12, 30, 14, 40,
      70, 190⟩ (by decide),
    c8_grammar.2.2.2 _ ⟨2, 0, .SHORT, .DIFF_DIR, .SAME_CONFIG, 88, 16, 25,
      17, 35, 65, 180⟩ (by decide)⟩

/-- C9: decoding checks token shape only, not the data-model invariants: a
Cross-Fin name with label 0 and length_case LONG, and a Muller-Lyer name
with label 1, both match their grammars, and the index builders include the
decoded records as-is. -/
theorem c9_shape_only :
    crossFinIndex [['x', 'f', '_', '0', '_', '0', '_', 'L', 'O', 'N', 'G',
        '_', 'S', 'A', 'M', 'E', '_', 'C', 'O', 'N', 'F', 'I', 'G', '_',
        '5', '0', '_', '5', '0', '_', '1', '0', '_', '2', '0', '_', '1',
        '0', '_', '2', '0', '_', '6', '0', '_', '2', '0', '0', '.', 'p',
        'n', 'g']]
      = .ok [⟨0, 0, .LONG, .SAME_CONFIG, 50, 50, 10, 20, 10, 20, 60, 200⟩] ∧
    mullerLyerIndex [['m', 'l', '_', '0', '_', '1', '_', 'L', 'O', 'N', 'G',
        '_', 'S', 'A', 'M', 'E', '_', 'D', 'I', 'R', '_', 'S', 'A', 'M',
        'E', '_', 'C', 'O', 'N', 'F', 'I', 'G', '_', '6', '0', '_', '1',
        '5', '_', '2', '0', '_', '1', '5', '_', '2', '0', '_', '6', '0',
        '_', '2', '0', '0', '.', 'p', 'n', 'g']]
      = .ok [⟨0, 1, .LONG, .SAME_DIR, .SAME_CONFIG, 60, 15, 20, 15, 20, 60, 200⟩] := by
  exact ⟨rfl, rfl⟩

/-- C10: for every kind other than train and test, generate_and_save falls
through both branches: it returns normally with no directory created and no
file written, whatever the count, weights, size and seeds. -/
theorem c10_no_op :
    ∀ kind num w size xfSeeds mlSeeds,
      kind ≠ ['t', 'r', 'a', 'i', 'n'] → kind ≠ ['t', 'e', 's', 't'] →
      generate_and_save kind num w size xfSeeds mlSeeds
        = { dirs := [], files := [] } := by
  intro kind num w size xfSeeds mlSeeds h1 h2
  unfold generate_and_save
  rw [if_neg h1, if_neg h2]

theorem c10_no_op_witness :
    (['v', 'a', 'l'] ≠ ['t', 'r', 'a', 'i', 'n'] ∧
      ['v', 'a', 'l'] ≠ ['t', 'e', 's', 't']) ∧
    generate_and_save ['v', 'a', 'l'] 5 ⟨1, 1, 1, 1, 1, 2⟩ 256
      (fun _ => ⟨0, 0, 0, ⟨0, 0, 0, 0, 0, 0, 0, 0⟩⟩)
      (fun _ => ⟨0, 0, 0, ⟨0, 0, 0, 0, 0, 0, 0⟩⟩)
      = { dirs := [], files := [] } :=
  ⟨⟨by decide, by decide⟩,
    c10_no_op ['v', 'a', 'l'] 5 ⟨1, 1, 1, 1, 1, 2⟩ 256 _ _
      (by decide) (by decide)⟩

end HMAXIllusion
